import Mathlib

/-!
Shallow embedding of `src/cache.rs` (and the data it relies on) from the
rustyline redraw-optimisation cache, together with proofs about the claims
of its specification.

Modelling conventions:
* Rust `usize` is modelled as `Nat`.  The quantities involved (byte offsets,
  grapheme widths, screen columns/rows) are bounded by the text length and
  the terminal geometry, so `checked_add` overflow cannot occur and addition
  is total; `checked_sub(..).unwrap()`, `checked_rem(..).unwrap()` and
  `checked_div(..).unwrap()` can genuinely panic and are modelled with
  `Option` (`none` = panic).
* A Rust function that can panic (via `assert!`, `unwrap`, `unimplemented!`)
  returns `Option`/`Except`, with the failure constructor marking the panic.
  `debug_assert!` is compiled out in release builds and is modelled as a
  no-op (its intent is captured by the proved invariants instead).
* `&mut self` methods become functions from the cache to (result × cache).
-/

/-- Position on the screen (`struct Position` in cache.rs).
`row` is relative: the prompt starts at row 0. -/
structure Position where
  col : Nat
  row : Nat
deriving DecidableEq, Repr

instance : Inhabited Position := ⟨⟨0, 0⟩⟩

/-- `Position::default()` — the screen origin `{0,0}`. -/
def Position.default : Position := ⟨0, 0⟩

/-- Layout cache entry (`struct Entry` in cache.rs): byte offset of a
grapheme, its rendered width and its screen position. -/
structure Entry where
  idx : Nat
  width : Nat
  pos : Position
deriving DecidableEq, Repr

instance : Inhabited Entry := ⟨⟨0, 0, Position.default⟩⟩

/-- `Entry::new(idx, width)` — fresh entry at the default position.
The source's `debug_assert!(width > 0)` is release-compiled-out; the
invariant is proved separately. -/
def Entry.new (idx width : Nat) : Entry :=
  { idx := idx, width := width, pos := Position.default }

/-- Used to shift a position (`struct Shift` in cache.rs): magnitude and
direction per axis. -/
structure Shift where
  width : Nat
  right : Bool
  height : Nat
  down : Bool
deriving DecidableEq, Repr

/-- `const ZERO: Shift` in cache.rs. -/
def ZERO : Shift := { width := 0, right := true, height := 0, down := true }

/-- Free function `shift(u, shift, plus)` in cache.rs.
`checked_add` cannot overflow on `Nat`; `checked_sub(..).unwrap()` panics
(`none`) when subtracting more than the value. -/
def shift (u : Nat) (s : Nat) (plus : Bool) : Option Nat :=
  if s = 0 then some u
  else if plus then some (u + s)
  else if s ≤ u then some (u - s) else none

/-- Free function `delta(o, n)` in cache.rs: magnitude and direction of the
displacement from `o` to `n`. -/
def delta (o n : Nat) : Nat × Bool :=
  if n > o then (n - o, true)
  else if n < o then (o - n, false)
  else (0, true)

/-- `Shift::right(width, columns)` in cache.rs (renamed: `Shift` already has
a field `right`).  The third branch uses `checked_rem`/`checked_div` whose
`unwrap` panics when `columns = 0`. -/
def Shift.rightBy (width columns : Nat) : Option Shift :=
  if width = 0 then some ZERO
  else if width < columns then
    some { width := width, right := true, height := 0, down := true }
  else
    -- line wrapping
    if columns = 0 then none
    else some { width := width % columns, right := true,
                height := width / columns, down := true }

/-- `Shift::delta(old, new)` in cache.rs (renamed so that the free function
`delta` it calls stays visible inside the definition). -/
def Shift.deltaPos (old new : Position) : Shift :=
  if old = new then ZERO
  else
    let cd := delta old.col new.col
    let rd := delta old.row new.row
    { width := cd.1, right := cd.2, height := rd.1, down := rd.2 }

/-- `Shift::is_empty()` in cache.rs. -/
def Shift.isEmpty (s : Shift) : Bool := s.width = 0 && s.height = 0

/-- `Position::shift_mut`/`Position::shift` in cache.rs: apply a `Shift` to
a position, axis by axis (each axis only touched when its magnitude is
non-zero); `none` when the underlying `shift` call panics. -/
def Position.shiftPos (p : Position) (s : Shift) : Option Position :=
  match (if s.width ≠ 0 then shift p.col s.width s.right else some p.col) with
  | none => none
  | some c =>
    match (if s.height ≠ 0 then shift p.row s.height s.down else some p.row) with
    | none => none
    | some r => some { col := c, row := r }

/-- The layout cache (`struct LayoutCache` in cache.rs). -/
structure LayoutCache where
  prompt : List Entry
  text : List Entry
  columns : Nat
  tab_stop : Nat
  dirty : Bool
deriving DecidableEq, Repr

/-- `LayoutCache::new(tab_stop)`. -/
def LayoutCache.new (ts : Nat) : LayoutCache :=
  { prompt := [], text := [], columns := 0, tab_stop := ts, dirty := false }

/-- `LayoutCache::shift_entry(&self, e)`: position immediately after entry
`e`; the `assert!` (active in release builds) panics (`none`) unless the
resulting column is strictly inside `columns`. -/
def LayoutCache.shift_entry (c : LayoutCache) (e : Entry) : Option Position :=
  if e.width = 0 then some e.pos
  else if e.pos.col + e.width < c.columns then
    some { col := e.pos.col + e.width, row := e.pos.row }
  else none

/-- `LayoutCache::prompt_size(&self)`: position following the prompt's last
entry, or the origin when the prompt is empty.  The `debug_assert!` on the
result column is release-compiled-out. -/
def LayoutCache.prompt_size (c : LayoutCache) : Option Position :=
  match c.prompt.getLast? with
  | some e => c.shift_entry e
  | none => some Position.default

/-- The binary search used by `cursor_position`:
`self.text.binary_search_by_key(&cursor, |e| e.idx)`.  This is the halving
loop of Rust's `slice::binary_search_by`: `ok mid` on an exact key match,
`error left` with the insertion point otherwise. -/
def binarySearchGo (l : List Entry) (target : Nat) (left right : Nat) :
    Except Nat Nat :=
  if h : left < right then
    let mid := left + (right - left) / 2
    let k := (l.getD mid default).idx
    if k < target then binarySearchGo l target (mid + 1) right
    else if target < k then binarySearchGo l target left mid
    else .ok mid
  else .error left
termination_by right - left
decreasing_by
all_goals simp_wf
all_goals omega

/-- `slice::binary_search_by_key` over the whole entry list. -/
def binarySearchByKey (l : List Entry) (target : Nat) : Except Nat Nat :=
  binarySearchGo l target 0 l.length

/-- `LayoutCache::cursor_position(&self, cursor)` in cache.rs; `none` when a
panic (failed `assert!` inside `shift_entry`) is reached. -/
def LayoutCache.cursor_position (c : LayoutCache) (cursor : Nat) :
    Option Position :=
  if c.text.isEmpty || cursor = 0 then c.prompt_size
  else
    match binarySearchByKey c.text cursor with
    | .ok i => some (c.text.getD i default).pos
    | .error i =>
      if i = 0 then
        -- we don't store zero width grapheme
        some Position.default
      else if i = c.text.length then
        -- cursor at the end: `self.text.last().unwrap()`
        match c.text.getLast? with
        | some e => c.shift_entry e
        | none => none
      else
        -- we don't store zero width grapheme
        some (c.text.getD i default).pos

/-- `LayoutCache::window_resized(&mut self, columns, _rows)` in cache.rs.
When `columns` changes and any entry is stored, the per-entry loop calls
`update_entry`, whose body is `unimplemented!()` — a panic, modelled as
`none`.  When both sequences are empty the loop body never runs, the shift
stays `ZERO` and the method returns `!shift.is_empty() = false` after
recording the new width. -/
def LayoutCache.window_resized (c : LayoutCache) (columns : Nat)
    (_rows : Nat) : Option (Bool × LayoutCache) :=
  if c.columns = columns then some (false, c)
  else if c.prompt.isEmpty && c.text.isEmpty then
    some (!ZERO.isEmpty, { c with columns := columns })
  else none

/-- The prompt-rebuild loop of `LayoutCache::prompt_updated`:
`self.prompt.clear();` then, only when `self.columns > 0`, push an
`Entry::new(i, width)` for every grapheme of non-zero width.  The grapheme
segmentation + width capability is external to the repository, so its
output is taken as the argument `gs : List (Nat × Nat)` of
(byte offset, width) pairs, in string order. -/
def rebuildPrompt (columns : Nat) (gs : List (Nat × Nat)) : List Entry :=
  if 0 < columns then
    gs.filterMap (fun p => if p.2 = 0 then none else some (Entry.new p.1 p.2))
  else []

/-- `LayoutCache::prompt_updated(&mut self, prompt)` in cache.rs.
`.error s` is a panic with the cache in state `s` at that point: either a
failed `assert!` inside one of the two `prompt_size` calls, or — on every
path that gets past them — the trailing `unimplemented!()`.  The body of
`if !shift.is_empty() { ... }` is an empty comment in the source, so `text`
is never shifted, and the function returns `()` (never a repaint flag), so
a normal return `.ok` is unreachable. -/
def LayoutCache.prompt_updated (c : LayoutCache) (gs : List (Nat × Nat)) :
    Except LayoutCache (LayoutCache × Bool) :=
  match c.prompt_size with
  | none => .error c
  | some oldSize =>
    let c1 := { c with prompt := rebuildPrompt c.columns gs }
    match c1.prompt_size with
    | none => .error c1
    | some newSize =>
      let s := Shift.deltaPos oldSize newSize
      if !s.isEmpty then
        -- shift self.text entries position (left unimplemented in the source)
        .error c1 -- unimplemented!()
      else
        .error c1 -- unimplemented!()

/-- The two structural invariants of an entry sequence: every stored entry
has positive width, and entries are sorted strictly ascending by `idx`. -/
def entryListOK (l : List Entry) : Prop :=
  (∀ e ∈ l, 0 < e.width) ∧ l.Pairwise (fun a b => a.idx < b.idx)

/-- Both sequences of the cache satisfy the structural invariants. -/
def cacheOK (c : LayoutCache) : Prop :=
  entryListOK c.prompt ∧ entryListOK c.text

/-! ## Helper lemmas -/

/-- The `if s.width != 0` guard in `Position::shift_mut` is redundant with
`shift`'s own zero test. -/
theorem guard_shift (u w : Nat) (b : Bool) :
    (if w ≠ 0 then shift u w b else some u) = shift u w b := by
  by_cases h : w = 0 <;> simp [shift, h]

/-- `shift` in the positive direction is plain addition. -/
theorem shift_true (u s : Nat) : shift u s true = some (u + s) := by
  unfold shift
  by_cases h : s = 0
  · subst h; simp
  · simp [h]

/-- `shift` in the negative direction subtracts when it fits. -/
theorem shift_false_le (u s : Nat) (h : s ≤ u) : shift u s false = some (u - s) := by
  unfold shift
  by_cases h0 : s = 0
  · subst h0; simp
  · simp [h0, h]

/-- `shift` in the negative direction panics on underflow. -/
theorem shift_false_gt (u s : Nat) (h : u < s) : shift u s false = none := by
  unfold shift
  have h0 : ¬s = 0 := by omega
  simp [h0, Nat.not_le_of_lt h]

/-- Case analysis of the free function `delta`. -/
theorem delta_cases (o n : Nat) :
    (o < n ∧ delta o n = (n - o, true)) ∨
    (n < o ∧ delta o n = (o - n, false)) ∨
    (o = n ∧ delta o n = (0, true)) := by
  unfold delta
  rcases Nat.lt_trichotomy o n with h | h | h
  · exact Or.inl ⟨h, by rw [if_pos h]⟩
  · subst h
    exact Or.inr (Or.inr ⟨rfl, by rw [if_neg (by omega), if_neg (by omega)]⟩)
  · exact Or.inr (Or.inl ⟨h, by rw [if_neg (by omega), if_pos h]⟩)

/-- Applying `shift` with the pair computed by `delta o n` to `o` gives `n`. -/
theorem shift_delta_exact (o n : Nat) :
    shift o (delta o n).1 (delta o n).2 = some n := by
  rcases delta_cases o n with ⟨h, he⟩ | ⟨h, he⟩ | ⟨h, he⟩ <;> rw [he]
  · rw [shift_true]; exact congrArg some (by omega)
  · rw [shift_false_le o (o - n) (by omega)]; exact congrArg some (by omega)
  · rw [shift_true]; exact congrArg some (by omega)

/-- The magnitude computed by `delta` vanishes exactly on equal inputs. -/
theorem delta_fst_eq_zero (o n : Nat) : (delta o n).1 = 0 ↔ o = n := by
  rcases delta_cases o n with ⟨h, he⟩ | ⟨h, he⟩ | ⟨h, he⟩ <;> rw [he] <;>
    constructor <;> intro h2 <;> simp at h2 ⊢ <;> omega

/-- In a list sorted strictly ascending by `idx`, `getD`-keys are strictly
monotone below the length. -/
theorem sorted_getD_lt (l : List Entry)
    (hs : l.Pairwise fun a b => a.idx < b.idx)
    {i j : Nat} (hij : i < j) (hj : j < l.length) :
    (l.getD i default).idx < (l.getD j default).idx := by
  have hi : i < l.length := lt_trans hij hj
  rw [List.getD_eq_getElem l default hi, List.getD_eq_getElem l default hj]
  exact List.pairwise_iff_getElem.mp hs i j hi hj hij

/-- Weak-monotone version of `sorted_getD_lt`. -/
theorem sorted_getD_le (l : List Entry)
    (hs : l.Pairwise fun a b => a.idx < b.idx)
    {i j : Nat} (hij : i ≤ j) (hj : j < l.length) :
    (l.getD i default).idx ≤ (l.getD j default).idx := by
  rcases Nat.lt_or_ge i j with h | h
  · exact Nat.le_of_lt (sorted_getD_lt l hs h hj)
  · have : i = j := Nat.le_antisymm hij h
    exact this ▸ Nat.le_refl _

/-- One-step unfolding of the halving loop, with the `dite` flattened. -/
theorem binarySearchGo_eq (l : List Entry) (t left right : Nat) :
    binarySearchGo l t left right =
      if left < right then
        (if (l.getD (left + (right - left) / 2) default).idx < t then
          binarySearchGo l t (left + (right - left) / 2 + 1) right
        else if t < (l.getD (left + (right - left) / 2) default).idx then
          binarySearchGo l t left (left + (right - left) / 2)
        else .ok (left + (right - left) / 2))
      else .error left := by
  rw [binarySearchGo]
  by_cases h : left < right
  · rw [dif_pos h, if_pos h]
  · rw [dif_neg h, if_neg h]

/-- Correctness of the halving loop on a sorted slice: under the loop
invariant (everything left of `left` is below `target`, everything from
`right` on is above it), an `ok i` result points at an exact key match and
an `error i` result is the insertion point. -/
theorem binarySearchGo_spec (l : List Entry) (t : Nat)
    (hs : l.Pairwise fun a b => a.idx < b.idx) :
    ∀ n left right, right - left ≤ n → left ≤ right → right ≤ l.length →
    (∀ j, j < left → (l.getD j default).idx < t) →
    (∀ j, right ≤ j → j < l.length → t < (l.getD j default).idx) →
    (∀ i, binarySearchGo l t left right = .ok i →
        i < l.length ∧ (l.getD i default).idx = t) ∧
    (∀ i, binarySearchGo l t left right = .error i →
        i ≤ l.length ∧
        (∀ j, j < i → (l.getD j default).idx < t) ∧
        (∀ j, i ≤ j → j < l.length → t < (l.getD j default).idx)) := by
  intro n
  induction n using Nat.strong_induction_on with
  | _ n ih =>
    intro left right hn hlr hrl hlo hhi
    rw [binarySearchGo_eq]
    by_cases h : left < right
    · rw [if_pos h]
      have hmlt : left + (right - left) / 2 < right := by omega
      have hmle : left ≤ left + (right - left) / 2 := by omega
      have hmlen : left + (right - left) / 2 < l.length := lt_of_lt_of_le hmlt hrl
      by_cases hk : (l.getD (left + (right - left) / 2) default).idx < t
      · rw [if_pos hk]
        refine ih (right - (left + (right - left) / 2 + 1)) (by omega)
          (left + (right - left) / 2 + 1) right (by omega) (by omega) hrl ?_ hhi
        intro j hj
        rcases Nat.lt_or_ge j left with hj2 | hj2
        · exact hlo j hj2
        · calc (l.getD j default).idx
              ≤ (l.getD (left + (right - left) / 2) default).idx :=
                sorted_getD_le l hs (by omega) hmlen
            _ < t := hk
      · rw [if_neg hk]
        by_cases hk2 : t < (l.getD (left + (right - left) / 2) default).idx
        · rw [if_pos hk2]
          refine ih ((left + (right - left) / 2) - left) (by omega)
            left (left + (right - left) / 2) (by omega) hmle (by omega) hlo ?_
          intro j hj hjl
          exact lt_of_lt_of_le hk2 (sorted_getD_le l hs hj hjl)
        · rw [if_neg hk2]
          constructor
          · intro i hi
            have : left + (right - left) / 2 = i := by
              injection hi
            subst this
            exact ⟨hmlen, by omega⟩
          · intro i hi
            cases hi
    · rw [if_neg h]
      have hlr2 : left = right := by omega
      constructor
      · intro i hi; cases hi
      · intro i hi
        have : left = i := by injection hi
        subst this
        refine ⟨le_trans (le_of_eq hlr2) hrl, hlo, ?_⟩
        intro j hj hjl
        exact hhi j (le_trans (le_of_eq hlr2.symm) hj) hjl

/-- `binarySearchGo_spec` instantiated at the full slice. -/
theorem binarySearchByKey_spec (l : List Entry) (t : Nat)
    (hs : l.Pairwise fun a b => a.idx < b.idx) :
    (∀ i, binarySearchByKey l t = .ok i →
        i < l.length ∧ (l.getD i default).idx = t) ∧
    (∀ i, binarySearchByKey l t = .error i →
        i ≤ l.length ∧
        (∀ j, j < i → (l.getD j default).idx < t) ∧
        (∀ j, i ≤ j → j < l.length → t < (l.getD j default).idx)) :=
  binarySearchGo_spec l t hs l.length 0 l.length (by omega) (by omega)
    (le_refl _) (fun j hj => absurd hj (by omega))
    (fun j hj hjl => absurd hjl (by omega))

/-- A `getD` below the length is a member. -/
theorem getD_mem (l : List Entry) {j : Nat} (hj : j < l.length) :
    l.getD j default ∈ l := by
  rw [List.getD_eq_getElem l default hj]
  exact List.getElem_mem hj

/-- `cursor_position` on non-empty text and non-zero cursor dispatches on
the binary search result exactly as in the source. -/
theorem cursor_position_of_ne (c : LayoutCache) (cursor : Nat)
    (hne : c.text ≠ []) (h0 : cursor ≠ 0) :
    c.cursor_position cursor =
      match binarySearchByKey c.text cursor with
      | .ok i => some (c.text.getD i default).pos
      | .error i =>
        if i = 0 then some Position.default
        else if i = c.text.length then
          match c.text.getLast? with
          | some e => c.shift_entry e
          | none => none
        else some (c.text.getD i default).pos := by
  unfold LayoutCache.cursor_position
  rw [if_neg]
  simp [List.isEmpty_iff, hne, h0]

/-! ## Claims -/

/-- C1: for every cache whose text is sorted ascending by `idx` (the cache
invariant) and every cursor offset, `cursor_position` returns
`prompt_size()` when the text sequence is empty or the offset is 0;
otherwise the binary search by `idx` yields: the matching entry's `pos` on
an exact match, the screen origin when the insertion point is 0,
`shift_entry` of the last entry when the insertion point equals the length
of the text sequence, and `text[i].pos` for an interior insertion point
`i`. -/
theorem claim_C1_cursor_position (c : LayoutCache)
    (hs : c.text.Pairwise fun a b => a.idx < b.idx) (cursor : Nat) :
    ((c.text = [] ∨ cursor = 0) → c.cursor_position cursor = c.prompt_size) ∧
    (c.text ≠ [] → cursor ≠ 0 →
      (∀ j, j < c.text.length → (c.text.getD j default).idx = cursor →
          c.cursor_position cursor = some (c.text.getD j default).pos) ∧
      ((∀ e ∈ c.text, cursor < e.idx) →
          c.cursor_position cursor = some Position.default) ∧
      (∀ e, c.text.getLast? = some e → (∀ x ∈ c.text, x.idx < cursor) →
          c.cursor_position cursor = c.shift_entry e) ∧
      (∀ i, 0 < i → i < c.text.length →
          (c.text.getD (i - 1) default).idx < cursor →
          cursor < (c.text.getD i default).idx →
          c.cursor_position cursor = some (c.text.getD i default).pos)) := by
  constructor
  · intro h
    unfold LayoutCache.cursor_position
    rw [if_pos]
    rcases h with h | h <;> simp [List.isEmpty_iff, h]
  · intro hne h0
    have hspec := binarySearchByKey_spec c.text cursor hs
    have hlen : 0 < c.text.length := List.length_pos.mpr hne
    rw [cursor_position_of_ne c cursor hne h0] at *
    refine ⟨?_, ?_, ?_, ?_⟩
    · -- exact match
      intro j hj hjeq
      cases hbs : binarySearchByKey c.text cursor with
      | ok i =>
        obtain ⟨hilen, hieq⟩ := hspec.1 i hbs
        have hij : i = j := by
          rcases Nat.lt_trichotomy i j with h | h | h
          · have := sorted_getD_lt c.text hs h hj; omega
          · exact h
          · have := sorted_getD_lt c.text hs h hilen; omega
        subst hij
        simp [hbs]
      | error i =>
        obtain ⟨hile, hlo, hhi⟩ := hspec.2 i hbs
        exfalso
        rcases Nat.lt_or_ge j i with h | h
        · have := hlo j h; omega
        · have := hhi j h hj; omega
    · -- insertion point 0: all stored offsets above the cursor
      intro hgt
      cases hbs : binarySearchByKey c.text cursor with
      | ok i =>
        obtain ⟨hilen, hieq⟩ := hspec.1 i hbs
        have := hgt _ (getD_mem c.text hilen)
        omega
      | error i =>
        obtain ⟨hile, hlo, hhi⟩ := hspec.2 i hbs
        have hi0 : i = 0 := by
          by_contra hi
          have h1 : (c.text.getD 0 default).idx < cursor := hlo 0 (by omega)
          have h2 := hgt _ (getD_mem c.text hlen)
          omega
        subst hi0
        simp [hbs]
    · -- insertion point = length: all stored offsets below the cursor
      intro e he hlt
      cases hbs : binarySearchByKey c.text cursor with
      | ok i =>
        obtain ⟨hilen, hieq⟩ := hspec.1 i hbs
        have := hlt _ (getD_mem c.text hilen)
        omega
      | error i =>
        obtain ⟨hile, hlo, hhi⟩ := hspec.2 i hbs
        have hil : i = c.text.length := by
          by_contra hi
          have h1 := hhi i (le_refl i) (by omega)
          have h2 := hlt _ (getD_mem c.text (show i < c.text.length by omega))
          omega
        subst hil
        simp [hbs, he, Nat.pos_iff_ne_zero.mp hlen]
    · -- interior insertion point
      intro i hi0 hilen hprev hnext
      cases hbs : binarySearchByKey c.text cursor with
      | ok k =>
        obtain ⟨hklen, hkeq⟩ := hspec.1 k hbs
        exfalso
        rcases Nat.lt_or_ge k i with h | h
        · have h1 : k ≤ i - 1 := by omega
          have h2 := sorted_getD_le c.text hs h1 (show i - 1 < c.text.length by omega)
          omega
        · have h2 := sorted_getD_le c.text hs h hklen
          omega
      | error j =>
        obtain ⟨hjle, hlo, hhi⟩ := hspec.2 j hbs
        have hji : j = i := by
          rcases Nat.lt_trichotomy j i with h | h | h
          · have h1 := hhi (i - 1) (by omega) (by omega)
            omega
          · exact h
          · have h1 := hlo i h
            omega
        subst hji
        simp [hbs, Nat.pos_iff_ne_zero.mp hi0, Nat.ne_of_lt hilen]

/-- Witness for C1: the four dispatch outcomes at a concrete sorted cache
(text offsets 4, 6, 10). -/
theorem claim_C1_witness :
    LayoutCache.cursor_position
      { prompt := [], text := [⟨4, 1, ⟨2, 0⟩⟩, ⟨6, 2, ⟨3, 0⟩⟩, ⟨10, 1, ⟨5, 0⟩⟩],
        columns := 80, tab_stop := 8, dirty := false } 6 = some ⟨3, 0⟩ ∧
    LayoutCache.cursor_position
      { prompt := [], text := [⟨4, 1, ⟨2, 0⟩⟩, ⟨6, 2, ⟨3, 0⟩⟩, ⟨10, 1, ⟨5, 0⟩⟩],
        columns := 80, tab_stop := 8, dirty := false } 2 = some Position.default ∧
    LayoutCache.cursor_position
      { prompt := [], text := [⟨4, 1, ⟨2, 0⟩⟩, ⟨6, 2, ⟨3, 0⟩⟩, ⟨10, 1, ⟨5, 0⟩⟩],
        columns := 80, tab_stop := 8, dirty := false } 11 = some ⟨6, 0⟩ ∧
    LayoutCache.cursor_position
      { prompt := [], text := [⟨4, 1, ⟨2, 0⟩⟩, ⟨6, 2, ⟨3, 0⟩⟩, ⟨10, 1, ⟨5, 0⟩⟩],
        columns := 80, tab_stop := 8, dirty := false } 5 = some ⟨3, 0⟩ := by
  have h := claim_C1_cursor_position
    { prompt := [], text := [⟨4, 1, ⟨2, 0⟩⟩, ⟨6, 2, ⟨3, 0⟩⟩, ⟨10, 1, ⟨5, 0⟩⟩],
      columns := 80, tab_stop := 8, dirty := false } (by decide)
  refine ⟨?_, ?_, ?_, ?_⟩
  · exact ((h 6).2 (by decide) (by decide)).1 1 (by decide) (by decide)
  · exact ((h 2).2 (by decide) (by decide)).2.1 (by decide)
  · exact (((h 11).2 (by decide) (by decide)).2.2.1 ⟨10, 1, ⟨5, 0⟩⟩
      (by decide) (by decide)).trans (by decide)
  · exact ((h 5).2 (by decide) (by decide)).2.2.2 1 (by decide) (by decide)
      (by decide) (by decide)

/-- C3: applying `Shift::delta(old, new)` to `old` yields `new` (per axis,
with the magnitude and direction `delta` computes), and the resulting shift
`is_empty()` exactly when `old = new`. -/
theorem claim_C3_delta_roundtrip (old new : Position) :
    old.shiftPos (Shift.deltaPos old new) = some new ∧
    ((Shift.deltaPos old new).isEmpty = true ↔ old = new) := by
  constructor
  · by_cases h : old = new
    · subst h
      simp [Shift.deltaPos, ZERO, Position.shiftPos]
    · simp only [Shift.deltaPos, if_neg h, Position.shiftPos, guard_shift]
      rw [shift_delta_exact, shift_delta_exact]
  · constructor
    · intro h
      by_contra hne
      simp only [Shift.deltaPos, if_neg hne, Shift.isEmpty] at h
      simp only [Bool.and_eq_true, decide_eq_true_eq] at h
      obtain ⟨h1, h2⟩ := h
      rw [delta_fst_eq_zero] at h1 h2
      cases old; cases new
      simp_all
    · intro h
      subst h
      simp [Shift.deltaPos, ZERO, Shift.isEmpty]

/-- C4: `window_resized` with an unchanged `columns` is a no-op returning
`false`, and a second call with the same `columns` after any completed call
returns `false` leaving the cache untouched. -/
theorem claim_C4_window_resized (c : LayoutCache) (columns rows : Nat) :
    (c.columns = columns → c.window_resized columns rows = some (false, c)) ∧
    (∀ b c' rows', c.window_resized columns rows = some (b, c') →
        c'.window_resized columns rows' = some (false, c')) := by
  constructor
  · intro h
    unfold LayoutCache.window_resized
    rw [if_pos h]
  · intro b c' rows' h
    unfold LayoutCache.window_resized at h
    by_cases h1 : c.columns = columns
    · rw [if_pos h1] at h
      injection h with h2
      injection h2 with hb hc
      subst hc
      unfold LayoutCache.window_resized
      rw [if_pos h1]
    · rw [if_neg h1] at h
      by_cases h2 : (c.prompt.isEmpty && c.text.isEmpty) = true
      · rw [if_pos h2] at h
        injection h with h3
        injection h3 with hb hc
        subst hc
        unfold LayoutCache.window_resized
        rw [if_pos rfl]
      · rw [if_neg h2] at h
        exact Option.noConfusion h

/-- Witness for C4: a same-width call is a no-op, and a second call after a
completed resize (from width 0, empty cache) returns `false` unchanged. -/
theorem claim_C4_witness :
    LayoutCache.window_resized
      { prompt := [], text := [], columns := 80, tab_stop := 8, dirty := false }
      80 24 =
      some (false,
        { prompt := [], text := [], columns := 80, tab_stop := 8,
          dirty := false }) ∧
    LayoutCache.window_resized
      { prompt := [], text := [], columns := 80, tab_stop := 8, dirty := false }
      80 25 =
      some (false,
        { prompt := [], text := [], columns := 80, tab_stop := 8,
          dirty := false }) := by
  refine ⟨?_, ?_⟩
  · exact (claim_C4_window_resized
      { prompt := [], text := [], columns := 80, tab_stop := 8, dirty := false }
      80 24).1 rfl
  · exact (claim_C4_window_resized
      { prompt := [], text := [], columns := 0, tab_stop := 8, dirty := false }
      80 24).2 false _ 25 (by decide)

/-- C5: for an entry of positive width, `shift_entry` returns the position
one entry-width to the right on the same row, and panics (the `assert!`)
unless that column is strictly less than `columns`. -/
theorem claim_C5_shift_entry (c : LayoutCache) (e : Entry) (h : 0 < e.width) :
    c.shift_entry e =
      if e.pos.col + e.width < c.columns then
        some { col := e.pos.col + e.width, row := e.pos.row }
      else none := by
  unfold LayoutCache.shift_entry
  rw [if_neg (by omega)]

/-- Witness for C5: a width-2 entry at column 3 of an 10-column screen, and
the assertion firing when the result column would reach the width. -/
theorem claim_C5_witness :
    LayoutCache.shift_entry
      { prompt := [], text := [], columns := 10, tab_stop := 8, dirty := false }
      ⟨0, 2, ⟨3, 1⟩⟩ = some ⟨5, 1⟩ ∧
    LayoutCache.shift_entry
      { prompt := [], text := [], columns := 10, tab_stop := 8, dirty := false }
      ⟨0, 2, ⟨8, 0⟩⟩ = none := by
  refine ⟨?_, ?_⟩
  · exact (claim_C5_shift_entry
      { prompt := [], text := [], columns := 10, tab_stop := 8, dirty := false }
      ⟨0, 2, ⟨3, 1⟩⟩ (by decide)).trans (by decide)
  · exact (claim_C5_shift_entry
      { prompt := [], text := [], columns := 10, tab_stop := 8, dirty := false }
      ⟨0, 2, ⟨8, 0⟩⟩ (by decide)).trans (by decide)

/-- C6: with a positive column count, `Shift::right` decomposes the width
into column magnitude `width % columns` and row magnitude
`width / columns`, both in the positive (right/down) direction. -/
theorem claim_C6_shift_right (width columns : Nat) (h : 0 < columns) :
    Shift.rightBy width columns =
      some { width := width % columns, right := true,
             height := width / columns, down := true } := by
  unfold Shift.rightBy
  by_cases h0 : width = 0
  · subst h0
    simp [ZERO, Nat.zero_mod, Nat.zero_div]
  · rw [if_neg h0]
    by_cases h1 : width < columns
    · rw [if_pos h1, Nat.mod_eq_of_lt h1, Nat.div_eq_of_lt h1]
    · rw [if_neg h1, if_neg (by omega)]

/-- Witness for C6: a wrapping width (7 on 3 columns), a narrow width
(2 on 5 columns, row magnitude 0), and width 0 (the zero shift). -/
theorem claim_C6_witness :
    Shift.rightBy 7 3 =
      some { width := 1, right := true, height := 2, down := true } ∧
    Shift.rightBy 2 5 =
      some { width := 2, right := true, height := 0, down := true } ∧
    Shift.rightBy 0 5 = some ZERO := by
  refine ⟨?_, ?_, ?_⟩
  · exact (claim_C6_shift_right 7 3 (by decide)).trans (by decide)
  · exact (claim_C6_shift_right 2 5 (by decide)).trans (by decide)
  · exact (claim_C6_shift_right 0 5 (by decide)).trans (by decide)

/-- C7: `prompt_size` returns the origin for an empty prompt and
`shift_entry` of the last prompt entry otherwise; with a prompt laid out
for `"> "` (two width-1 graphemes on row 0) and empty text,
`cursor_position(0)` is `{col: 2, row: 0}`. -/
theorem claim_C7_prompt_size (c : LayoutCache) :
    (c.prompt = [] → c.prompt_size = some Position.default) ∧
    (∀ e, c.prompt.getLast? = some e → c.prompt_size = c.shift_entry e) ∧
    LayoutCache.cursor_position
      { prompt := [⟨0, 1, ⟨0, 0⟩⟩, ⟨1, 1, ⟨1, 0⟩⟩], text := [],
        columns := 80, tab_stop := 8, dirty := false } 0 = some ⟨2, 0⟩ := by
  refine ⟨?_, ?_, by decide⟩
  · intro h
    unfold LayoutCache.prompt_size
    rw [h]
    rfl
  · intro e he
    unfold LayoutCache.prompt_size
    rw [he]

/-- Witness for C7: both `prompt_size` branches at concrete caches. -/
theorem claim_C7_witness :
    LayoutCache.prompt_size
      { prompt := [], text := [], columns := 80, tab_stop := 8,
        dirty := false } = some Position.default ∧
    LayoutCache.prompt_size
      { prompt := [⟨0, 1, ⟨0, 0⟩⟩, ⟨1, 1, ⟨1, 0⟩⟩], text := [],
        columns := 80, tab_stop := 8, dirty := false } = some ⟨2, 0⟩ := by
  refine ⟨?_, ?_⟩
  · exact (claim_C7_prompt_size
      { prompt := [], text := [], columns := 80, tab_stop := 8,
        dirty := false }).1 rfl
  · exact ((claim_C7_prompt_size
      { prompt := [⟨0, 1, ⟨0, 0⟩⟩, ⟨1, 1, ⟨1, 0⟩⟩], text := [],
        columns := 80, tab_stop := 8, dirty := false }).2.1
      ⟨1, 1, ⟨1, 0⟩⟩ (by decide)).trans (by decide)

/-- C8: `shift` adds in the positive direction, subtracts in the negative
direction when the magnitude fits, panics on underflow, and is the
identity at magnitude 0 in either direction. -/
theorem claim_C8_shift (u s : Nat) :
    shift u s true = some (u + s) ∧
    (s ≤ u → shift u s false = some (u - s)) ∧
    (u < s → shift u s false = none) ∧
    (∀ b, shift u 0 b = some u) :=
  ⟨shift_true u s, shift_false_le u s, shift_false_gt u s,
   fun b => by unfold shift; rw [if_pos rfl]⟩

/-- Witness for C8 at concrete values, including the underflow panic. -/
theorem claim_C8_witness :
    shift 5 3 true = some 8 ∧ shift 5 3 false = some 2 ∧
    shift 2 5 false = none ∧ shift 7 0 false = some 7 :=
  ⟨(claim_C8_shift 5 3).1, (claim_C8_shift 5 3).2.1 (by decide),
   (claim_C8_shift 2 5).2.2.1 (by decide), (claim_C8_shift 7 0).2.2.2 false⟩

/-- C10: with `columns = 0` and a positive width, `Shift::right` reaches
the wrap branch, where `checked_rem(0)`/`checked_div(0)` are `None` and the
`unwrap` panics: the unknown/unpaintable width-0 state is not handled. -/
theorem claim_C10_right_zero_columns (width : Nat) (h : 0 < width) :
    Shift.rightBy width 0 = none := by
  unfold Shift.rightBy
  rw [if_neg (by omega), if_neg (by omega), if_pos rfl]

/-- Witness for C10 at width 2. -/
theorem claim_C10_witness : Shift.rightBy 2 0 = none :=
  claim_C10_right_zero_columns 2 (by decide)

/-- The prompt rebuilt by `prompt_updated` satisfies the structural
invariants whenever the grapheme offsets are strictly ascending (as
`grapheme_indices` guarantees). -/
theorem rebuildPrompt_ok (columns : Nat) (gs : List (Nat × Nat))
    (hgs : gs.Pairwise fun a b => a.1 < b.1) :
    entryListOK (rebuildPrompt columns gs) := by
  unfold rebuildPrompt
  by_cases h : 0 < columns
  · rw [if_pos h]
    constructor
    · intro e he
      rw [List.mem_filterMap] at he
      obtain ⟨a, _, ha⟩ := he
      by_cases hw : a.2 = 0
      · rw [if_pos hw] at ha
        exact Option.noConfusion ha
      · rw [if_neg hw] at ha
        injection ha with ha
        rw [← ha]
        exact Nat.pos_of_ne_zero hw
    · refine List.Pairwise.filterMap _ ?_ hgs
      intro a a' hlt b hb b' hb'
      by_cases hw : a.2 = 0
      · rw [if_pos hw] at hb
        exact absurd hb (by simp)
      · by_cases hw' : a'.2 = 0
        · rw [if_pos hw'] at hb'
          exact absurd hb' (by simp)
        · rw [if_neg hw] at hb
          rw [if_neg hw'] at hb'
          rw [Option.mem_def] at hb hb'
          injection hb with hb
          injection hb' with hb'
          rw [← hb, ← hb']
          exact hlt
  · rw [if_neg h]
    exact ⟨fun e he => absurd he (List.not_mem_nil e), List.Pairwise.nil⟩

/-- On every path `prompt_updated` ends in a panic whose state depends only
on whether the first `prompt_size` call succeeded: the inner `if` has the
same `unimplemented!()` panic in both arms. -/
theorem prompt_updated_eq (c : LayoutCache) (gs : List (Nat × Nat)) :
    c.prompt_updated gs =
      match c.prompt_size with
      | none => .error c
      | some _ => .error { c with prompt := rebuildPrompt c.columns gs } := by
  unfold LayoutCache.prompt_updated
  split
  · rfl
  · simp only []
    split
    · rfl
    · split <;> rfl

/-- Every run of `prompt_updated` panics: either a `prompt_size` assertion
fires with the cache untouched, or the trailing `unimplemented!()` is
reached with the prompt rebuilt and the text untouched.  No normal return
exists. -/
theorem prompt_updated_panics (c : LayoutCache) (gs : List (Nat × Nat)) :
    (∀ r, c.prompt_updated gs ≠ .ok r) ∧
    (∀ s, c.prompt_updated gs = .error s →
        s = c ∨ s = { c with prompt := rebuildPrompt c.columns gs }) := by
  rw [prompt_updated_eq]
  cases c.prompt_size with
  | none =>
    refine ⟨fun r h => Except.noConfusion h, fun s h => ?_⟩
    injection h with h2
    exact Or.inl h2.symm
  | some oldSize =>
    refine ⟨fun r h => Except.noConfusion h, fun s h => ?_⟩
    injection h with h2
    exact Or.inr h2.symm

/-- C9: after every mutation the structural invariants hold — a fresh cache
satisfies them, `window_resized` preserves them whenever it completes, and
`prompt_updated` (fed strictly ascending grapheme offsets, as the external
segmenter guarantees) leaves every reachable state satisfying them: stored
entries all have positive width and both sequences are sorted ascending by
`idx`. -/
theorem claim_C9_invariants (ts : Nat) :
    cacheOK (LayoutCache.new ts) ∧
    (∀ c columns rows b c', cacheOK c →
        LayoutCache.window_resized c columns rows = some (b, c') →
        cacheOK c') ∧
    (∀ c gs s, cacheOK c → gs.Pairwise (fun a b => a.1 < b.1) →
        LayoutCache.prompt_updated c gs = .error s → cacheOK s) := by
  refine ⟨?_, ?_, ?_⟩
  · exact ⟨⟨fun e he => absurd he (List.not_mem_nil e), List.Pairwise.nil⟩,
           ⟨fun e he => absurd he (List.not_mem_nil e), List.Pairwise.nil⟩⟩
  · intro c columns rows b c' hc h
    unfold LayoutCache.window_resized at h
    by_cases h1 : c.columns = columns
    · rw [if_pos h1] at h
      injection h with h2
      injection h2 with hb hcc
      subst hcc
      exact hc
    · rw [if_neg h1] at h
      by_cases h2 : (c.prompt.isEmpty && c.text.isEmpty) = true
      · rw [if_pos h2] at h
        injection h with h3
        injection h3 with hb hcc
        subst hcc
        exact hc
      · rw [if_neg h2] at h
        exact Option.noConfusion h
  · intro c gs s hc hgs h
    rcases (prompt_updated_panics c gs).2 s h with h2 | h2 <;> subst h2
    · exact hc
    · exact ⟨rebuildPrompt_ok c.columns gs hgs, hc.2⟩

/-- Witness for C9: the invariants checked on concrete runs of all three
implemented mutation paths. -/
theorem claim_C9_witness :
    cacheOK (LayoutCache.new 8) ∧
    cacheOK { prompt := [], text := [], columns := 80, tab_stop := 8,
              dirty := false } ∧
    cacheOK { prompt := [⟨0, 1, Position.default⟩, ⟨2, 2, Position.default⟩],
              text := [], columns := 10, tab_stop := 8, dirty := false } := by
  refine ⟨(claim_C9_invariants 8).1, ?_, ?_⟩
  · exact (claim_C9_invariants 8).2.1 (LayoutCache.new 8) 80 24 false _
      (claim_C9_invariants 8).1 (by decide)
  · exact (claim_C9_invariants 8).2.2
      { prompt := [], text := [], columns := 10, tab_stop := 8, dirty := false }
      [(0, 1), (2, 2)] _
      ⟨⟨fun e he => absurd he (List.not_mem_nil e), List.Pairwise.nil⟩,
       ⟨fun e he => absurd he (List.not_mem_nil e), List.Pairwise.nil⟩⟩
      (by decide) rfl

/-- C2 (code bug): on a concrete cache (10 columns, one stored text entry
at screen position `{2,0}`) and a one-grapheme prompt, `prompt_updated`
rebuilds the prompt — but it never applies
`Shift::delta(old_size, new_size)` to the text entry even though that
shift is non-empty (the `if !shift.is_empty()` body is just a comment),
and it returns no repaint flag: every run panics at the trailing
`unimplemented!()` with the text untouched. -/
theorem claim_C2_prompt_updated_unimplemented :
    LayoutCache.prompt_size
      { prompt := [], text := [⟨0, 1, ⟨2, 0⟩⟩], columns := 10, tab_stop := 8,
        dirty := false } = some ⟨0, 0⟩ ∧
    LayoutCache.prompt_size
      { prompt := [⟨0, 1, ⟨0, 0⟩⟩], text := [⟨0, 1, ⟨2, 0⟩⟩], columns := 10,
        tab_stop := 8, dirty := false } = some ⟨1, 0⟩ ∧
    (Shift.deltaPos ⟨0, 0⟩ ⟨1, 0⟩).isEmpty = false ∧
    LayoutCache.prompt_updated
      { prompt := [], text := [⟨0, 1, ⟨2, 0⟩⟩], columns := 10, tab_stop := 8,
        dirty := false } [(0, 1)] =
      .error { prompt := [⟨0, 1, ⟨0, 0⟩⟩], text := [⟨0, 1, ⟨2, 0⟩⟩],
               columns := 10, tab_stop := 8, dirty := false } :=
  ⟨rfl, rfl, rfl, rfl⟩

/-- Witness for C3 at concrete positions (a mixed-direction displacement:
right and up). -/
theorem claim_C3_witness :
    Position.shiftPos ⟨2, 5⟩ (Shift.deltaPos ⟨2, 5⟩ ⟨7, 1⟩) = some ⟨7, 1⟩ ∧
    ((Shift.deltaPos ⟨4, 4⟩ ⟨4, 4⟩).isEmpty = true ↔
      (⟨4, 4⟩ : Position) = ⟨4, 4⟩) :=
  ⟨(claim_C3_delta_roundtrip ⟨2, 5⟩ ⟨7, 1⟩).1,
   (claim_C3_delta_roundtrip ⟨4, 4⟩ ⟨4, 4⟩).2⟩
